import Mathlib

/-!
# Verification of IsoQuant tail location and boundary annotation

Shallow embedding of `src/polya_finder.py` (class `PolyAFinder`) and
`src/assignment_io.py` (class `IOSupport`) from the IsoQuant repository,
together with theorems settling the specification claims about them.

Conventions of the embedding:
* Python strings are Lean `String`s; Python slicing `s[a:b]` (with its
  negative-index and clamping semantics) is `pySlice`.
* Python `int` is `Int`; CIGAR operation codes are `Nat` (4 = soft clip,
  5 = hard clip, matching pysam's encoding used by the source).
* A raised exception (e.g. `IndexError` from `cigar_tuples[-1]` on an
  empty list) is modelled by `Option.none`.
* Python float division in `check_downstream_polya` is modelled as exact
  rational division (`ℚ`); all claims about it compare exact quantities.
-/

namespace IsoQuant

/-- Python slice `s[a:b]` for integer indices `a`, `b`: a negative index
counts from the end (clamped below at 0), a positive index is clamped
above at the length, and the result is empty when the resolved start is
not before the resolved stop. -/
def pySlice (s : String) (a b : Int) : String :=
  let n : Int := (s.data.length : Int)
  let lo : Nat := (if a < 0 then max (n + a) 0 else min a n).toNat
  let hi : Nat := (if b < 0 then max (n + b) 0 else min b n).toNat
  ⟨(s.data.drop lo).take (hi - lo)⟩

/-- Python `str.upper()` restricted to the ASCII alphabet used for
nucleotide sequences (per-character uppercasing). -/
def pyUpper (s : String) : String := ⟨s.data.map Char.toUpper⟩

/-- Nucleotide complement as used through `Bio.Seq.reverse_complement` in
`find_polyt_head`.  The source only ever feeds A/C/G/T (upper or lower
case) windows to it; other characters are left unchanged. -/
def complementChar (c : Char) : Char :=
  if c = 'A' then 'T' else if c = 'C' then 'G'
  else if c = 'G' then 'C' else if c = 'T' then 'A'
  else if c = 'a' then 't' else if c = 'c' then 'g'
  else if c = 'g' then 'c' else if c = 't' then 'a'
  else c

/-- `Bio.Seq.Seq(s).reverse_complement()`: complement every base, then
reverse. -/
def reverse_complement (s : String) : String :=
  ⟨(s.data.map complementChar).reverse⟩

/-- `PolyAFinder.__init__`: `window_size` (default 20) and the threshold
`polyA_count = int(window_size * min_polya_fraction)` (default
`int(20 * 0.8) = 16`; the float product is exact enough that the default
truncates to 16). -/
structure PolyAFinder where
  window_size : Nat
  polyA_count : Nat

/-- The `PolyAFinder()` built with the source defaults
(`window_size=20`, `min_polya_fraction=0.8`, so `polyA_count = 16`). -/
def defaultFinder : PolyAFinder := { window_size := 20, polyA_count := 16 }

/-- `PolyAFinder.find_polya(seq)` (src/polya_finder.py:82-92).
If `len(seq) < window_size` return `-1`.  Otherwise the `while` loop
increments `i` from 0 while `i < len(seq) - window_size`, breaking at the
first `i` whose window `seq[i:i+window_size]` holds at least `polyA_count`
letters `A`; after the loop, `i >= len(seq) - window_size` yields `-1`,
otherwise `i` is returned.  This is exactly: the first `i` in
`[0, len(seq) - window_size)` whose window qualifies, else `-1`. -/
def find_polya (pf : PolyAFinder) (s : String) : Int :=
  if s.data.length < pf.window_size then -1
  else
    match (List.range (s.data.length - pf.window_size)).find?
        (fun i => pf.polyA_count ≤ ((s.data.drop i).take pf.window_size).count 'A') with
    | some i => (i : Int)
    | none => -1

/-- The alignment record fields used by `PolyAFinder`
(pysam `AlignedSegment`): CIGAR tuples `(operation, length)`, the query
sequence (empty string models `None`/empty, which is falsy in
`if not seq`), and the reference start/end coordinates. -/
structure Alignment where
  cigartuples : List (Nat × Nat)
  seq : String
  reference_start : Int
  reference_end : Int

/-- The 3'-clip computation of `find_polya_tail` (src/polya_finder.py:26-32):
`clipped_size = 0`; if `len(cigar) > 1 and cigar[-1][0] == 5 and
cigar[-2][0] == 4` then the soft clip length `cigar[-2][1]`; elif
`cigar[-1][0] == 4` then `cigar[-1][1]`.  On an empty CIGAR list the
`elif` evaluates `cigar_tuples[-1]` and raises `IndexError` (`none`). -/
def clipped_size_3 (cigar : List (Nat × Nat)) : Option Nat :=
  match cigar.reverse with
  | [] => none
  | [op] => if op.1 = 4 then some op.2 else some 0
  | op1 :: op2 :: _ =>
    if op1.1 = 5 ∧ op2.1 = 4 then some op2.2
    else if op1.1 = 4 then some op1.2
    else some 0

/-- The 5'-clip computation of `find_polyt_head` (src/polya_finder.py:55-61),
reading the leading CIGAR operations: if `len(cigar) > 1 and
cigar[0][0] == 5 and cigar[1][0] == 4` then `cigar[1][1]`; elif
`cigar[0][0] == 4` then `cigar[0][1]`; an empty list raises (`none`). -/
def clipped_size_5 (cigar : List (Nat × Nat)) : Option Nat :=
  match cigar with
  | [] => none
  | [op] => if op.1 = 4 then some op.2 else some 0
  | op1 :: op2 :: _ =>
    if op1.1 = 5 ∧ op2.1 = 4 then some op2.2
    else if op1.1 = 4 then some op1.2
    else some 0

/-- `PolyAFinder.find_polya_tail(alignment)` (src/polya_finder.py:23-51).
`none` models the `IndexError` raised on an empty CIGAR list (the CIGAR
inspection precedes the `if not seq` check in the source). -/
def find_polya_tail (pf : PolyAFinder) (a : Alignment) : Option Int :=
  match clipped_size_3 a.cigartuples with
  | none => none
  | some clipped_size =>
    if a.seq.data.length = 0 then some (-1)
    else
      let whole_tail_len : Nat := min clipped_size a.seq.data.length
      let check_tail_start : Nat := a.seq.data.length - whole_tail_len
      let check_tail_end : Nat := min (check_tail_start + 2 * pf.window_size) a.seq.data.length
      let pos := find_polya pf (pyUpper (pySlice a.seq check_tail_start check_tail_end))
      if pos = -1 then some (-1)
      else
        let ref_tail_start : Int :=
          a.reference_end + (clipped_size : Int) - (whole_tail_len : Int)
        let ref_polya_start : Int := ref_tail_start + pos + 1
        some (min ref_polya_start a.reference_end)

/-- `PolyAFinder.find_polyt_head(alignment)` (src/polya_finder.py:53-79).
The window before the clipped head is reverse-complemented and uppercased
before the shared poly(A) scan; `max check_head_end - 2*window_size 0` is
Nat subtraction, matching the source's `max(..., 0)`. -/
def find_polyt_head (pf : PolyAFinder) (a : Alignment) : Option Int :=
  match clipped_size_5 a.cigartuples with
  | none => none
  | some clipped_size =>
    if a.seq.data.length = 0 then some (-1)
    else
      let whole_head_len : Nat := min clipped_size a.seq.data.length
      let check_head_end : Nat := whole_head_len
      let check_head_start : Nat := check_head_end - 2 * pf.window_size
      let rc_head := pyUpper (reverse_complement
        (pySlice a.seq (check_head_start : Int) (check_head_end : Int)))
      let pos := find_polya pf rc_head
      if pos = -1 then some (-1)
      else
        let ref_head_end : Int :=
          a.reference_start - (clipped_size : Int) + (whole_head_len : Int)
        let ref_polyt_end : Int := max a.reference_start (ref_head_end - pos)
        some (max ref_polyt_end a.reference_start)

/-- The 3' clipped length as claim C3 words it, taken literally: the
soft-clip length when the trailing two CIGAR operations are hard-clip
followed by soft-clip (`cigar[-2]` hard, `cigar[-1]` soft); else the last
operation's length when it is a soft-clip; else zero. -/
def clipped_size_3_claimed (cigar : List (Nat × Nat)) : Nat :=
  match cigar.reverse with
  | [] => 0
  | [op] => if op.1 = 4 then op.2 else 0
  | opLast :: opPrev :: _ =>
    if opPrev.1 = 5 ∧ opLast.1 = 4 then opLast.2
    else if opLast.1 = 4 then opLast.2
    else 0

/-- `find_polya_tail` as claim C3 describes it, with the claim's literal
clip rule (`clipped_size_3_claimed`) and otherwise the claimed formula
`min (reference_end + clipped - whole_tail_len + pos + 1) reference_end`,
`-1` when the scan fails. -/
def find_polya_tail_claimed (pf : PolyAFinder) (a : Alignment) : Int :=
  let clipped_size := clipped_size_3_claimed a.cigartuples
  let whole_tail_len : Nat := min clipped_size a.seq.data.length
  let check_tail_start : Nat := a.seq.data.length - whole_tail_len
  let check_tail_end : Nat := min (check_tail_start + 2 * pf.window_size) a.seq.data.length
  let pos := find_polya pf (pyUpper (pySlice a.seq check_tail_start check_tail_end))
  if pos = -1 then -1
  else min (a.reference_end + (clipped_size : Int) - (whole_tail_len : Int) + pos + 1)
    a.reference_end

/-- The 3' clipped length as claim C3 reads after amendment: the
soft-clip length when the trailing two CIGAR operations are soft-clip
followed by hard-clip (`cigar[-2]` soft, `cigar[-1]` hard); else the last
operation's length when it is a soft-clip; else zero. -/
def clipped_size_3_amended (cigar : List (Nat × Nat)) : Nat :=
  match cigar.reverse with
  | [] => 0
  | [op] => if op.1 = 4 then op.2 else 0
  | opLast :: opPrev :: _ =>
    if opPrev.1 = 4 ∧ opLast.1 = 5 then opPrev.2
    else if opLast.1 = 4 then opLast.2
    else 0

/-- `find_polya_tail` as the amended claim C3 describes it: the clipped
length per `clipped_size_3_amended`, `whole_tail_len = min(clipped,
query_length)`, the sliding-window scan on the uppercased tail window,
then `min (reference_end + clipped - whole_tail_len + pos + 1)
reference_end`, and `-1` when the scan fails. -/
def find_polya_tail_amended (pf : PolyAFinder) (a : Alignment) : Int :=
  let clipped_size := clipped_size_3_amended a.cigartuples
  let whole_tail_len : Nat := min clipped_size a.seq.data.length
  let check_tail_start : Nat := a.seq.data.length - whole_tail_len
  let check_tail_end : Nat := min (check_tail_start + 2 * pf.window_size) a.seq.data.length
  let pos := find_polya pf (pyUpper (pySlice a.seq check_tail_start check_tail_end))
  if pos = -1 then -1
  else min (a.reference_end + (clipped_size : Int) - (whole_tail_len : Int) + pos + 1)
    a.reference_end

/-- An alignment whose trailing CIGAR operations are a 25-base soft clip
followed by a 5-base hard clip, with a 25-base poly(A) tail at the end of
the query. -/
def alnSoftHard : Alignment :=
  { cigartuples := [(0, 30), (4, 25), (5, 5)]
    seq := String.mk (List.replicate 30 'C' ++ List.replicate 25 'A')
    reference_start := 0
    reference_end := 100 }

/-- On a nonempty CIGAR the 3' clip computation does not raise. -/
theorem clipped_size_3_isSome (cigar : List (Nat × Nat)) (h : cigar ≠ []) :
    (clipped_size_3 cigar).isSome := by
  rcases hm : cigar.reverse with _ | ⟨op1, _ | ⟨op2, rest⟩⟩
  · exact absurd (by simpa using hm) h
  · simp only [clipped_size_3, hm]
    by_cases h4 : op1.1 = 4 <;> simp [h4]
  · simp only [clipped_size_3, hm]
    by_cases h1 : op1.1 = 5 ∧ op2.1 = 4 <;> by_cases h4 : op1.1 = 4 <;> simp [h1, h4]

/-- On a nonempty CIGAR the 5' clip computation does not raise. -/
theorem clipped_size_5_isSome (cigar : List (Nat × Nat)) (h : cigar ≠ []) :
    (clipped_size_5 cigar).isSome := by
  rcases cigar with _ | ⟨op1, _ | ⟨op2, rest⟩⟩
  · exact absurd rfl h
  · simp only [clipped_size_5]
    by_cases h4 : op1.1 = 4 <;> simp [h4]
  · simp only [clipped_size_5]
    by_cases h1 : op1.1 = 5 ∧ op2.1 = 4 <;> by_cases h4 : op1.1 = 4 <;> simp [h1, h4]

/-- The amended clip rule agrees with the source's 3' clip computation on
every nonempty CIGAR. -/
theorem clipped_size_3_amended_correct (cigar : List (Nat × Nat)) (h : cigar ≠ []) :
    clipped_size_3 cigar = some (clipped_size_3_amended cigar) := by
  rcases hm : cigar.reverse with _ | ⟨op1, _ | ⟨op2, rest⟩⟩
  · exact absurd (by simpa using hm) h
  · simp only [clipped_size_3, clipped_size_3_amended, hm]
    by_cases h4 : op1.1 = 4 <;> simp [h4]
  · simp only [clipped_size_3, clipped_size_3_amended, hm]
    by_cases h1 : op1.1 = 5 ∧ op2.1 = 4
    · rw [if_pos h1, if_pos ⟨h1.2, h1.1⟩]
    · have h2 : ¬(op2.1 = 4 ∧ op1.1 = 5) := fun hx => h1 ⟨hx.2, hx.1⟩
      rw [if_neg h1, if_neg h2]
      by_cases h4 : op1.1 = 4 <;> simp [h4]

/-- An alignment with no CIGAR operations and no query sequence: the
source evaluates `cigar_tuples[-1]` before checking the sequence. -/
def alnNoCigar : Alignment :=
  { cigartuples := [], seq := "", reference_start := 0, reference_end := 100 }

/-- An alignment with a CIGAR but an empty query sequence. -/
def alnEmptySeq : Alignment :=
  { cigartuples := [(0, 10)], seq := "", reference_start := 0, reference_end := 100 }

/-- Auxiliary: the value of `find_polya_tail` once the clip size is known
and the query sequence is nonempty. -/
theorem find_polya_tail_some (pf : PolyAFinder) (a : Alignment) (c : Nat)
    (hcs : clipped_size_3 a.cigartuples = some c) (hlen : a.seq.data.length ≠ 0) :
    find_polya_tail pf a = some (
      let whole_tail_len : Nat := min c a.seq.data.length
      let check_tail_start : Nat := a.seq.data.length - whole_tail_len
      let check_tail_end : Nat := min (check_tail_start + 2 * pf.window_size) a.seq.data.length
      let pos := find_polya pf (pyUpper (pySlice a.seq check_tail_start check_tail_end))
      if pos = -1 then -1
      else min (a.reference_end + (c : Int) - (whole_tail_len : Int) + pos + 1)
        a.reference_end) := by
  simp only [find_polya_tail, hcs]
  rw [if_neg hlen]
  split <;> simp_all

/-- C1: on an all-`A` string of length exactly `window_size = 20` the
single window `[0, 20)` holds 20 ≥ 16 letters `A`, so the spec requires
offset 0, yet `find_polya` returns `-1`: its `while` loop runs only while
`i < len(seq) - window_size`, which excludes offset
`len(seq) - window_size` (here the only offset, 0), contradicting the
guard `len(seq) < window_size` that admits such strings and the spec's
stated property. -/
theorem find_polya_full_window_bug :
    find_polya defaultFinder (String.mk (List.replicate 20 'A')) = -1 ∧
    defaultFinder.polyA_count ≤
      (((String.mk (List.replicate 20 'A')).data.drop 0).take
        defaultFinder.window_size).count 'A' := by
  decide

/-- C6: a poly(T) window of length `window_size = 20` reverse-complements
to the all-`A` string of length 20, whose unique window qualifies
(20 ≥ 16 letters `A`), yet the shared scan `find_polya` returns `-1` on
it, so the claimed poly(T)/poly(A) round trip fails: the scan's `while`
loop never inspects the final window offset. -/
theorem find_polyt_roundtrip_bug :
    pyUpper (reverse_complement (String.mk (List.replicate 20 'T'))) =
      String.mk (List.replicate 20 'A') ∧
    defaultFinder.polyA_count ≤
      ((String.mk (List.replicate 20 'A')).data.take defaultFinder.window_size).count 'A' ∧
    find_polya defaultFinder
      (pyUpper (reverse_complement (String.mk (List.replicate 20 'T')))) = -1 := by
  decide

/-- C3 counterexample: on an alignment whose trailing CIGAR operations
are soft-clip then hard-clip with a 25-base poly(A) tail, the source
takes the soft-clip length (25) and reports genomic position 100
(= `reference_end`), while the claim's literal clip rule (hard-clip
followed by soft-clip) takes clip 0 and predicts `-1`. -/
theorem find_polya_tail_clip_order_cex :
    find_polya_tail defaultFinder alnSoftHard = some 100 ∧
    find_polya_tail_claimed defaultFinder alnSoftHard = -1 ∧
    ((100 : Int) = -1 → False) := by
  refine ⟨by decide, by decide, by decide⟩

/-- C3 (amended): for every alignment with at least one CIGAR operation
and a non-empty query sequence, `find_polya_tail` returns exactly the
value described by the amended claim: the 3' clipped length is the
soft-clip length when the trailing two operations are soft-clip followed
by hard-clip, else the last operation's length when it is a soft-clip,
else zero; when the sliding-window scan on the clipped tail window finds
a run at offset `pos` the result is
`min (reference_end + clipped - whole_tail_len + pos + 1) reference_end`
with `whole_tail_len = min clipped query_length`, and `-1` otherwise. -/
theorem find_polya_tail_amended_spec (pf : PolyAFinder) (a : Alignment)
    (hc : a.cigartuples ≠ []) (hs : a.seq ≠ "") :
    find_polya_tail pf a = some (find_polya_tail_amended pf a) := by
  have hlen : a.seq.data.length ≠ 0 := fun h0 =>
    hs (String.ext (List.length_eq_zero.mp h0))
  have h := find_polya_tail_some pf a (clipped_size_3_amended a.cigartuples)
    (clipped_size_3_amended_correct a.cigartuples hc) hlen
  simpa [find_polya_tail_amended] using h

/-- C3 witness: the amended description instantiated on the concrete
soft-clip/hard-clip alignment. -/
theorem find_polya_tail_amended_spec_witness :
    find_polya_tail defaultFinder alnSoftHard =
      some (find_polya_tail_amended defaultFinder alnSoftHard) :=
  find_polya_tail_amended_spec defaultFinder alnSoftHard (by decide) (by decide)

/-- C9 counterexample: on an alignment with an empty CIGAR list and an
empty query sequence, `find_polya_tail` raises `IndexError` (the CIGAR
is inspected before the sequence check), so the empty-sequence case does
not return `-1` for every alignment. -/
theorem find_polya_tail_empty_cigar_raises :
    find_polya_tail defaultFinder alnNoCigar = none ∧
    ¬ find_polya_tail defaultFinder alnNoCigar = some (-1) := by
  decide

/-- C9 (amended): every not-found condition resolves to the sentinel
`-1`: a string shorter than `window_size` makes `find_polya` return
`-1`, and an alignment with at least one CIGAR operation and an empty
query sequence makes `find_polya_tail` and `find_polyt_head` return
`-1`. -/
theorem not_found_conditions_yield_sentinel (pf : PolyAFinder) (s : String)
    (hs : s.data.length < pf.window_size) (a : Alignment)
    (hc : a.cigartuples ≠ []) (he : a.seq = "") :
    find_polya pf s = -1 ∧ find_polya_tail pf a = some (-1) ∧
      find_polyt_head pf a = some (-1) := by
  refine ⟨?_, ?_, ?_⟩
  · simp only [find_polya]
    rw [if_pos hs]
  · obtain ⟨c, hc3⟩ := Option.isSome_iff_exists.mp (clipped_size_3_isSome a.cigartuples hc)
    simp [find_polya_tail, hc3, he]
  · obtain ⟨c, hc5⟩ := Option.isSome_iff_exists.mp (clipped_size_5_isSome a.cigartuples hc)
    simp [find_polyt_head, hc5, he]

/-- C9 witness: the sentinel behaviour on the concrete short string
`"ACG"` and the concrete empty-sequence alignment. -/
theorem not_found_conditions_yield_sentinel_witness :
    find_polya defaultFinder "ACG" = -1 ∧
    find_polya_tail defaultFinder alnEmptySeq = some (-1) ∧
    find_polyt_head defaultFinder alnEmptySeq = some (-1) :=
  not_found_conditions_yield_sentinel defaultFinder "ACG" (by decide)
    alnEmptySeq (by decide) rfl

/-! ## IOSupport (src/assignment_io.py) -/

/-- The fields of the gene-region object (`gene_info`) used by
`IOSupport`: the reference window start (`all_read_region_start`), the
reference region sequence, the mutable per-gene canonical-site cache
(a Python dict, modelled as an association list where the most recent
binding shadows older ones), and the external transcript model queries
(`transcript_start`, `transcript_end`, `all_isoforms_exons`, and
`db.children(gene, featuretype='transcript', order_by='start')` as an
id-ordered list per gene). -/
structure GeneInfo where
  all_read_region_start : Int
  reference_region : String
  canonical_sites : List ((Int × Int) × Bool)
  transcript_start : String → Int
  transcript_end : String → Int
  all_isoforms_exons : String → List (Int × Int)
  children : String → List String

/-- Dict lookup `gene_info.canonical_sites[intron]` (`none` when the
intron is absent, i.e. `intron not in gene_info.canonical_sites`). -/
def lookup_site (cache : List ((Int × Int) × Bool)) (intron : Int × Int) : Option Bool :=
  (cache.find? (fun p => p.1 == intron)).map Prod.snd

/-- `IOSupport.canonical_donor_sites` (src/assignment_io.py:277). -/
def canonical_donor_sites : List String := ["GT", "GC", "AT"]

/-- `IOSupport.canonical_acceptor_sites` (src/assignment_io.py:278). -/
def canonical_acceptor_sites : List String := ["AG", "AC"]

/-- `IOSupport.canonical_donor_sites_rc` (src/assignment_io.py:279). -/
def canonical_donor_sites_rc : List String := ["AC", "GC", "AT"]

/-- `IOSupport.canonical_acceptor_sites_rc` (src/assignment_io.py:280). -/
def canonical_acceptor_sites_rc : List String := ["CT", "GT"]

/-- The boolean computed and stored for an intron missing from the cache
(src/assignment_io.py:331-340): extract the 2-base sites at the intron
edges from the reference region and test them against the strand's site
lists. -/
def canonical_value (gi : GeneInfo) (intron : Int × Int) (strand : Char) : Bool :=
  let intron_left_pos : Int := intron.1 - gi.all_read_region_start
  let intron_right_pos : Int := intron.2 - gi.all_read_region_start
  let left_site := pySlice gi.reference_region intron_left_pos (intron_left_pos + 2)
  let right_site := pySlice gi.reference_region (intron_right_pos - 1) (intron_right_pos + 1)
  if strand = '+' then
    canonical_donor_sites.contains left_site && canonical_acceptor_sites.contains right_site
  else
    canonical_acceptor_sites_rc.contains left_site && canonical_donor_sites_rc.contains right_site

/-- `IOSupport.check_sites_are_canonical(read_introns, gene_info,
strand)` (src/assignment_io.py:328-345).  The mutation of
`gene_info.canonical_sites` is threaded explicitly: the call returns the
updated gene-region object together with the boolean result.  Returns
`false` as soon as a cached or freshly computed intron is non-canonical;
`true` after all introns pass. -/
def check_sites_are_canonical :
    List (Int × Int) → GeneInfo → Char → GeneInfo × Bool
  | [], gi, _ => (gi, true)
  | intron :: rest, gi, strand =>
    let gi2 :=
      match lookup_site gi.canonical_sites intron with
      | some _ => gi
      | none =>
        { gi with canonical_sites :=
            (intron, canonical_value gi intron strand) :: gi.canonical_sites }
    if lookup_site gi2.canonical_sites intron = some false then (gi2, false)
    else check_sites_are_canonical rest gi2 strand

/-- The configuration field used by `check_downstream_polya`
(`params.upstream_region_len`, default 20). -/
structure Params where
  upstream_region_len : Nat

/-- `IOSupport.check_downstream_polya(read_coords, gene_info, strand)`
(src/assignment_io.py:347-356).  Python's float division is modelled as
exact rational division; the source never calls it with
`upstream_region_len = 0` (Python would raise `ZeroDivisionError`,
`ℚ` yields 0). -/
def check_downstream_polya (params : Params) (read_coords : Int × Int)
    (gi : GeneInfo) (strand : Char) : String × ℚ :=
  if strand = '+' then
    let read_end : Int := read_coords.2 - gi.all_read_region_start + 1
    let seq := pySlice gi.reference_region read_end
      (read_end + (params.upstream_region_len : Int))
    (seq, (((pyUpper seq).data.count 'A' : ℚ) / (params.upstream_region_len : ℚ)))
  else
    let read_start : Int := read_coords.1 - gi.all_read_region_start
    let seq := pySlice gi.reference_region
      (read_start - (params.upstream_region_len : Int)) read_start
    (seq, (((pyUpper seq).data.count 'T' : ℚ) / (params.upstream_region_len : ℚ)))

/-- Modelled from the spec: `sum_intervals_to_point` is imported from
`src/common.py`, which is absent from src/.  Per spec section 4.2 the
distance is "the genomic span of ...-exon bases between the boundary and
the read's end (spliced/exonic distance, not raw genomic distance —
exonic gaps are excluded)": the number of bases of the closed intervals
`[start, end]` lying strictly before `point`. -/
def sum_intervals_to_point (intervals : List (Int × Int)) (point : Int) : Int :=
  (intervals.map (fun p => max 0 (min p.2 (point - 1) - p.1 + 1))).sum

/-- Modelled from the spec: `sum_intervals_from_point` is imported from
`src/common.py`, which is absent from src/; symmetric to
`sum_intervals_to_point`, counting the bases of the closed intervals
lying strictly after `point`. -/
def sum_intervals_from_point (intervals : List (Int × Int)) (point : Int) : Int :=
  (intervals.map (fun p => max 0 (p.2 - max p.1 (point + 1) + 1))).sum

/-- Helper for `argmin`: fold carrying the current index, the best index
and the best value; a strictly smaller value replaces the best, so the
first occurrence of the minimum wins. -/
def argminAux : List Int → Nat → Nat → Int → Nat
  | [], _, besti, _ => besti
  | x :: xs, i, besti, bestv =>
    if x < bestv then argminAux xs (i + 1) i x
    else argminAux xs (i + 1) besti bestv

/-- Modelled from the spec: `argmin` is imported from `src/common.py`,
which is absent from src/.  Per spec section 4.2 it selects "the value
with smallest absolute magnitude (ties broken by first occurrence in
transcript iteration order)", i.e. the index of the first minimal
element of the list. -/
def argmin : List Int → Nat
  | [] => 0
  | x :: xs => argminAux xs 1 0 x

/-- The fields of a read assignment used by the distance computations:
its gene-region object, the read's exon features
(`combined_profile.read_exon_profile.read_features`), the read's
genomic start/end (`read_assignment.start()` / `.end()`), and the gene
of its primary isoform match (`isoform_matches[0].assigned_gene`). -/
structure ReadAssignment where
  gene_info : GeneInfo
  read_features : List (Int × Int)
  read_start : Int
  read_end : Int
  assigned_gene : String

/-- `IOSupport.count_tss_dist(read_assignment, transcript_id)`
(src/assignment_io.py:285-291). -/
def count_tss_dist (ra : ReadAssignment) (transcript_id : String) : Int :=
  let transcript_start := ra.gene_info.transcript_start transcript_id
  let read_start := ra.read_start
  if read_start < transcript_start then
    -sum_intervals_to_point ra.read_features transcript_start
  else
    sum_intervals_to_point (ra.gene_info.all_isoforms_exons transcript_id) read_start

/-- `IOSupport.count_tts_dist(read_assignment, transcript_id)`
(src/assignment_io.py:293-299). -/
def count_tts_dist (ra : ReadAssignment) (transcript_id : String) : Int :=
  let transcript_end := ra.gene_info.transcript_end transcript_id
  let read_end := ra.read_end
  if read_end > transcript_end then
    -sum_intervals_from_point ra.read_features transcript_end
  else
    sum_intervals_from_point (ra.gene_info.all_isoforms_exons transcript_id) read_end

/-- `IOSupport.find_closests_tsts(read_assignment)`
(src/assignment_io.py:301-313): per-transcript TSS/TTS distances over the
gene's transcripts in iteration order, each component selected
independently by `argmin` of absolute values.  `none` models the
`IndexError` Python raises indexing into the empty distance lists when
the gene has no transcripts. -/
def find_closests_tsts (ra : ReadAssignment) : Option (Int × Int) :=
  let transcripts := ra.gene_info.children ra.assigned_gene
  if transcripts.isEmpty then none
  else
    let dists_to_gene_tss := transcripts.map (count_tss_dist ra)
    let dists_to_gene_tts := transcripts.map (count_tts_dist ra)
    some (dists_to_gene_tss.getD (argmin (dists_to_gene_tss.map (fun x => |x|))) 0,
          dists_to_gene_tts.getD (argmin (dists_to_gene_tts.map (fun x => |x|))) 0)

/-- A freshly stored cache binding shadows the rest of the cache. -/
theorem lookup_site_cons (cache : List ((Int × Int) × Bool)) (i : Int × Int) (b : Bool) :
    lookup_site ((i, b) :: cache) i = some b := by
  simp [lookup_site, List.find?_cons]

/-- Processing a single uncached intron stores `canonical_value` for it
and returns that boolean. -/
theorem check_single_uncached (gi : GeneInfo) (intron : Int × Int) (strand : Char)
    (h : lookup_site gi.canonical_sites intron = none) :
    (check_sites_are_canonical [intron] gi strand).1.canonical_sites =
      (intron, canonical_value gi intron strand) :: gi.canonical_sites ∧
    (check_sites_are_canonical [intron] gi strand).2 =
      canonical_value gi intron strand := by
  simp only [check_sites_are_canonical, h]
  cases hb : canonical_value gi intron strand <;>
    simp [lookup_site_cons, hb, check_sites_are_canonical]

/-- On the `+` strand the stored boolean tests the left site against
`{GT, GC, AT}` and the right site against `{AG, AC}`. -/
theorem canonical_value_plus (gi : GeneInfo) (intron : Int × Int) :
    canonical_value gi intron '+' =
      decide (((pySlice gi.reference_region (intron.1 - gi.all_read_region_start)
          (intron.1 - gi.all_read_region_start + 2)) = "GT" ∨
        (pySlice gi.reference_region (intron.1 - gi.all_read_region_start)
          (intron.1 - gi.all_read_region_start + 2)) = "GC" ∨
        (pySlice gi.reference_region (intron.1 - gi.all_read_region_start)
          (intron.1 - gi.all_read_region_start + 2)) = "AT") ∧
        ((pySlice gi.reference_region (intron.2 - gi.all_read_region_start - 1)
          (intron.2 - gi.all_read_region_start + 1)) = "AG" ∨
        (pySlice gi.reference_region (intron.2 - gi.all_read_region_start - 1)
          (intron.2 - gi.all_read_region_start + 1)) = "AC")) := by
  simp [canonical_value, canonical_donor_sites, canonical_acceptor_sites, List.contains]

/-- On the `-` strand the stored boolean tests the left site against
`{CT, GT}` (the reverse-complement acceptors) and the right site against
`{AC, GC, AT}` (the reverse-complement donors). -/
theorem canonical_value_minus (gi : GeneInfo) (intron : Int × Int) :
    canonical_value gi intron '-' =
      decide (((pySlice gi.reference_region (intron.1 - gi.all_read_region_start)
          (intron.1 - gi.all_read_region_start + 2)) = "CT" ∨
        (pySlice gi.reference_region (intron.1 - gi.all_read_region_start)
          (intron.1 - gi.all_read_region_start + 2)) = "GT") ∧
        ((pySlice gi.reference_region (intron.2 - gi.all_read_region_start - 1)
          (intron.2 - gi.all_read_region_start + 1)) = "AC" ∨
        (pySlice gi.reference_region (intron.2 - gi.all_read_region_start - 1)
          (intron.2 - gi.all_read_region_start + 1)) = "GC" ∨
        (pySlice gi.reference_region (intron.2 - gi.all_read_region_start - 1)
          (intron.2 - gi.all_read_region_start + 1)) = "AT")) := by
  simp [canonical_value, canonical_acceptor_sites_rc, canonical_donor_sites_rc, List.contains]

/-- A minus-strand gene region whose first intron has left site `AC` and
right site `CT`. -/
def giMinusCex : GeneInfo :=
  { all_read_region_start := 0
    reference_region := "ACACT"
    canonical_sites := []
    transcript_start := fun _ => 0
    transcript_end := fun _ => 0
    all_isoforms_exons := fun _ => []
    children := fun _ => [] }

/-- C2 counterexample: on the minus strand with left site `AC` and right
site `CT` the claim's criterion (left in `{AC, GC, AT}`, right in
`{CT, GT}`) says canonical, but the code classifies the intron as
non-canonical (it tests left against `{CT, GT}` and right against
`{AC, GC, AT}`, the opposite assignment of the two
reverse-complemented site lists to the two edges). -/
theorem check_sites_canonical_minus_cex :
    (pySlice giMinusCex.reference_region 0 2 = "AC" ∧
      pySlice giMinusCex.reference_region 3 5 = "CT") ∧
    (("AC" = "AC" ∨ "AC" = "GC" ∨ "AC" = "AT") ∧ ("CT" = "CT" ∨ "CT" = "GT")) ∧
    (check_sites_are_canonical [((0 : Int), (4 : Int))] giMinusCex '-').2 = false ∧
    lookup_site
      (check_sites_are_canonical [((0 : Int), (4 : Int))] giMinusCex '-').1.canonical_sites
      ((0 : Int), (4 : Int)) = some false := by
  decide

/-- C2 (amended): for an intron not yet cached,
`check_sites_are_canonical` classifies it (stores and returns the
boolean) as canonical iff, on the minus strand, the 2-base left site is
in `{CT, GT}` and the 2-base right site is in `{AC, GC, AT}`; on the
plus strand, iff the left site is in `{GT, GC, AT}` and the right site
is in `{AG, AC}`. -/
theorem check_sites_canonical_classification (gi : GeneInfo) (intron : Int × Int)
    (left_site right_site : String)
    (h : lookup_site gi.canonical_sites intron = none)
    (hl : left_site = pySlice gi.reference_region (intron.1 - gi.all_read_region_start)
      (intron.1 - gi.all_read_region_start + 2))
    (hr : right_site = pySlice gi.reference_region (intron.2 - gi.all_read_region_start - 1)
      (intron.2 - gi.all_read_region_start + 1)) :
    (lookup_site (check_sites_are_canonical [intron] gi '-').1.canonical_sites intron =
      some (decide ((left_site = "CT" ∨ left_site = "GT") ∧
        (right_site = "AC" ∨ right_site = "GC" ∨ right_site = "AT")))) ∧
    ((check_sites_are_canonical [intron] gi '-').2 =
      decide ((left_site = "CT" ∨ left_site = "GT") ∧
        (right_site = "AC" ∨ right_site = "GC" ∨ right_site = "AT"))) ∧
    (lookup_site (check_sites_are_canonical [intron] gi '+').1.canonical_sites intron =
      some (decide ((left_site = "GT" ∨ left_site = "GC" ∨ left_site = "AT") ∧
        (right_site = "AG" ∨ right_site = "AC")))) ∧
    ((check_sites_are_canonical [intron] gi '+').2 =
      decide ((left_site = "GT" ∨ left_site = "GC" ∨ left_site = "AT") ∧
        (right_site = "AG" ∨ right_site = "AC"))) := by
  subst hl hr
  obtain ⟨hm1, hm2⟩ := check_single_uncached gi intron '-' h
  obtain ⟨hp1, hp2⟩ := check_single_uncached gi intron '+' h
  refine ⟨?_, ?_, ?_, ?_⟩
  · rw [hm1, lookup_site_cons, canonical_value_minus]
  · rw [hm2, canonical_value_minus]
  · rw [hp1, lookup_site_cons, canonical_value_plus]
  · rw [hp2, canonical_value_plus]

/-- A gene region whose first intron has left site `GT` and right site
`AG` (canonical on the plus strand). -/
def giPlusCanonical : GeneInfo :=
  { all_read_region_start := 0
    reference_region := "GTAAG"
    canonical_sites := []
    transcript_start := fun _ => 0
    transcript_end := fun _ => 0
    all_isoforms_exons := fun _ => []
    children := fun _ => [] }

/-- C2 witness: the amended classification instantiated on the concrete
`GT...AG` intron. -/
theorem check_sites_canonical_classification_witness :
    (lookup_site
      (check_sites_are_canonical [((0 : Int), (4 : Int))] giPlusCanonical '-').1.canonical_sites
      ((0 : Int), (4 : Int)) =
      some (decide ((pySlice giPlusCanonical.reference_region (0 - 0) (0 - 0 + 2) = "CT" ∨
          pySlice giPlusCanonical.reference_region (0 - 0) (0 - 0 + 2) = "GT") ∧
        (pySlice giPlusCanonical.reference_region (4 - 0 - 1) (4 - 0 + 1) = "AC" ∨
          pySlice giPlusCanonical.reference_region (4 - 0 - 1) (4 - 0 + 1) = "GC" ∨
          pySlice giPlusCanonical.reference_region (4 - 0 - 1) (4 - 0 + 1) = "AT")))) ∧
    ((check_sites_are_canonical [((0 : Int), (4 : Int))] giPlusCanonical '-').2 =
      decide ((pySlice giPlusCanonical.reference_region (0 - 0) (0 - 0 + 2) = "CT" ∨
          pySlice giPlusCanonical.reference_region (0 - 0) (0 - 0 + 2) = "GT") ∧
        (pySlice giPlusCanonical.reference_region (4 - 0 - 1) (4 - 0 + 1) = "AC" ∨
          pySlice giPlusCanonical.reference_region (4 - 0 - 1) (4 - 0 + 1) = "GC" ∨
          pySlice giPlusCanonical.reference_region (4 - 0 - 1) (4 - 0 + 1) = "AT"))) ∧
    (lookup_site
      (check_sites_are_canonical [((0 : Int), (4 : Int))] giPlusCanonical '+').1.canonical_sites
      ((0 : Int), (4 : Int)) =
      some (decide ((pySlice giPlusCanonical.reference_region (0 - 0) (0 - 0 + 2) = "GT" ∨
          pySlice giPlusCanonical.reference_region (0 - 0) (0 - 0 + 2) = "GC" ∨
          pySlice giPlusCanonical.reference_region (0 - 0) (0 - 0 + 2) = "AT") ∧
        (pySlice giPlusCanonical.reference_region (4 - 0 - 1) (4 - 0 + 1) = "AG" ∨
          pySlice giPlusCanonical.reference_region (4 - 0 - 1) (4 - 0 + 1) = "AC")))) ∧
    ((check_sites_are_canonical [((0 : Int), (4 : Int))] giPlusCanonical '+').2 =
      decide ((pySlice giPlusCanonical.reference_region (0 - 0) (0 - 0 + 2) = "GT" ∨
          pySlice giPlusCanonical.reference_region (0 - 0) (0 - 0 + 2) = "GC" ∨
          pySlice giPlusCanonical.reference_region (0 - 0) (0 - 0 + 2) = "AT") ∧
        (pySlice giPlusCanonical.reference_region (4 - 0 - 1) (4 - 0 + 1) = "AG" ∨
          pySlice giPlusCanonical.reference_region (4 - 0 - 1) (4 - 0 + 1) = "AC"))) :=
  check_sites_canonical_classification giPlusCanonical (0, 4) _ _ rfl rfl rfl

/-- C7: once a boolean is cached for an intron, a later call on the same
gene-region object returns the cached boolean and leaves the cache
unchanged, even when the reference region sequence has been mutated to
an arbitrary other string in between. -/
theorem cached_site_is_authoritative (gi : GeneInfo) (ref2 : String) (strand : Char)
    (intron : Int × Int) (b : Bool)
    (h : lookup_site gi.canonical_sites intron = some b) :
    (check_sites_are_canonical [intron] { gi with reference_region := ref2 } strand).1 =
      { gi with reference_region := ref2 } ∧
    (check_sites_are_canonical [intron] { gi with reference_region := ref2 } strand).2
      = b := by
  have h2 : lookup_site
      ({ gi with reference_region := ref2 } : GeneInfo).canonical_sites intron = some b := h
  simp only [check_sites_are_canonical, h2]
  cases b <;> simp [check_sites_are_canonical]

/-- A gene region with a cached canonical-site boolean for intron
`(5, 10)`. -/
def giCached : GeneInfo :=
  { all_read_region_start := 0
    reference_region := "ACGT"
    canonical_sites := [(((5 : Int), (10 : Int)), true)]
    transcript_start := fun _ => 0
    transcript_end := fun _ => 0
    all_isoforms_exons := fun _ => []
    children := fun _ => [] }

/-- C7 witness: the cached boolean survives replacing the reference
region by `"TTTT"`. -/
theorem cached_site_is_authoritative_witness :
    (check_sites_are_canonical [((5 : Int), (10 : Int))]
        { giCached with reference_region := "TTTT" } '+').1 =
      { giCached with reference_region := "TTTT" } ∧
    (check_sites_are_canonical [((5 : Int), (10 : Int))]
        { giCached with reference_region := "TTTT" } '+').2 = true :=
  cached_site_is_authoritative giCached "TTTT" '+' (5, 10) true (by decide)

/-- A Python slice with in-range non-negative bounds is drop-then-take. -/
theorem pySlice_eq_of_range (s : String) (a b : Int)
    (ha : 0 ≤ a) (hb : 0 ≤ b) (han : a ≤ (s.data.length : Int))
    (hbn : b ≤ (s.data.length : Int)) :
    pySlice s a b = ⟨(s.data.drop a.toNat).take (b.toNat - a.toNat)⟩ := by
  simp only [pySlice]
  rw [if_neg (not_lt.mpr ha), if_neg (not_lt.mpr hb), min_eq_left han, min_eq_left hbn]

/-- `check_downstream_polya` on the plus strand, when the downstream
window fits inside the reference region. -/
theorem check_downstream_polya_plus (p : Params) (coords : Int × Int) (gi : GeneInfo)
    (h0 : 0 ≤ coords.2 - gi.all_read_region_start + 1)
    (h1 : coords.2 - gi.all_read_region_start + 1 + (p.upstream_region_len : Int) ≤
      (gi.reference_region.data.length : Int)) :
    check_downstream_polya p coords gi '+' =
      (⟨(gi.reference_region.data.drop
          (coords.2 - gi.all_read_region_start + 1).toNat).take p.upstream_region_len⟩,
       (((pyUpper ⟨(gi.reference_region.data.drop
            (coords.2 - gi.all_read_region_start + 1).toNat).take
              p.upstream_region_len⟩).data.count 'A' : ℚ) /
         (p.upstream_region_len : ℚ))) := by
  have hb0 : (0 : Int) ≤
      coords.2 - gi.all_read_region_start + 1 + (p.upstream_region_len : Int) := by omega
  have ha_le : coords.2 - gi.all_read_region_start + 1 ≤
      (gi.reference_region.data.length : Int) := by omega
  have htake : (coords.2 - gi.all_read_region_start + 1 + (p.upstream_region_len : Int)).toNat -
      (coords.2 - gi.all_read_region_start + 1).toNat = p.upstream_region_len := by omega
  simp only [check_downstream_polya, if_true, if_false]
  rw [pySlice_eq_of_range _ _ _ h0 hb0 ha_le h1, htake]

/-- `check_downstream_polya` on the minus strand, when the upstream
window fits inside the reference region. -/
theorem check_downstream_polya_minus (p : Params) (coords : Int × Int) (gi : GeneInfo)
    (h0 : 0 ≤ coords.1 - gi.all_read_region_start - (p.upstream_region_len : Int))
    (h1 : coords.1 - gi.all_read_region_start ≤ (gi.reference_region.data.length : Int)) :
    check_downstream_polya p coords gi '-' =
      (⟨(gi.reference_region.data.drop
          (coords.1 - gi.all_read_region_start - (p.upstream_region_len : Int)).toNat).take
            p.upstream_region_len⟩,
       (((pyUpper ⟨(gi.reference_region.data.drop
            (coords.1 - gi.all_read_region_start - (p.upstream_region_len : Int)).toNat).take
              p.upstream_region_len⟩).data.count 'T' : ℚ) /
         (p.upstream_region_len : ℚ))) := by
  have hb0 : (0 : Int) ≤ coords.1 - gi.all_read_region_start := by omega
  have ha_le : coords.1 - gi.all_read_region_start - (p.upstream_region_len : Int) ≤
      (gi.reference_region.data.length : Int) := by omega
  have htake : (coords.1 - gi.all_read_region_start).toNat -
      (coords.1 - gi.all_read_region_start - (p.upstream_region_len : Int)).toNat =
      p.upstream_region_len := by omega
  have hne : ¬ ('-' : Char) = '+' := by decide
  simp only [check_downstream_polya, if_true, if_false]
  rw [pySlice_eq_of_range _ _ _ h0 hb0 ha_le h1, htake, if_neg hne]

/-- The extracted window has exactly the requested length when it fits. -/
theorem window_len (l : List Char) (k L : Nat) (h : k + L ≤ l.length) :
    ((l.drop k).take L).length = L := by
  simp [List.length_take, List.length_drop]
  omega

/-- A window made of `L` copies of an uppercase base yields fraction 1. -/
theorem all_base_fraction (w : List Char) (base : Char) (hbase : base.toUpper = base)
    (L : Nat) (hL : 0 < L) (hlen : w.length = L) (hall : ∀ c ∈ w, c = base) :
    (((w.map Char.toUpper).count base : ℚ) / (L : ℚ)) = 1 := by
  have hcnt : (w.map Char.toUpper).count base = L := by
    rw [List.count_eq_length.mpr]
    · simp [hlen]
    · intro b hb
      obtain ⟨c, hc, rfl⟩ := List.mem_map.mp hb
      rw [hall c hc, hbase]
  rw [hcnt, div_self]
  exact_mod_cast hL.ne.symm

/-- C8: for a plus-strand read whose `upstream_region_len`-base window
immediately downstream of the read's 3' end lies inside the reference
region, `check_downstream_polya` returns exactly that window and the
fraction of `A` bases in it (an all-`A` window yielding 1); for a
minus-strand read with the window immediately upstream of its 5' start
in range, it returns that window and the fraction of `T` bases (an
all-`T` window yielding 1). -/
theorem check_downstream_polya_spec (p : Params) (coords : Int × Int) (gi : GeneInfo)
    (hL : 0 < p.upstream_region_len)
    (h0p : 0 ≤ coords.2 - gi.all_read_region_start + 1)
    (h1p : coords.2 - gi.all_read_region_start + 1 + (p.upstream_region_len : Int) ≤
      (gi.reference_region.data.length : Int))
    (h0m : 0 ≤ coords.1 - gi.all_read_region_start - (p.upstream_region_len : Int))
    (h1m : coords.1 - gi.all_read_region_start ≤ (gi.reference_region.data.length : Int)) :
    (check_downstream_polya p coords gi '+' =
      (⟨(gi.reference_region.data.drop
          (coords.2 - gi.all_read_region_start + 1).toNat).take p.upstream_region_len⟩,
       (((pyUpper ⟨(gi.reference_region.data.drop
            (coords.2 - gi.all_read_region_start + 1).toNat).take
              p.upstream_region_len⟩).data.count 'A' : ℚ) /
         (p.upstream_region_len : ℚ)))) ∧
    ((∀ c ∈ (gi.reference_region.data.drop
        (coords.2 - gi.all_read_region_start + 1).toNat).take p.upstream_region_len, c = 'A') →
      (check_downstream_polya p coords gi '+').2 = 1) ∧
    (check_downstream_polya p coords gi '-' =
      (⟨(gi.reference_region.data.drop
          (coords.1 - gi.all_read_region_start - (p.upstream_region_len : Int)).toNat).take
            p.upstream_region_len⟩,
       (((pyUpper ⟨(gi.reference_region.data.drop
            (coords.1 - gi.all_read_region_start - (p.upstream_region_len : Int)).toNat).take
              p.upstream_region_len⟩).data.count 'T' : ℚ) /
         (p.upstream_region_len : ℚ)))) ∧
    ((∀ c ∈ (gi.reference_region.data.drop
        (coords.1 - gi.all_read_region_start -
          (p.upstream_region_len : Int)).toNat).take p.upstream_region_len, c = 'T') →
      (check_downstream_polya p coords gi '-').2 = 1) := by
  have hp := check_downstream_polya_plus p coords gi h0p h1p
  have hm := check_downstream_polya_minus p coords gi h0m h1m
  refine ⟨hp, fun hall => ?_, hm, fun hall => ?_⟩
  · rw [hp]
    have hlen : ((gi.reference_region.data.drop
        (coords.2 - gi.all_read_region_start + 1).toNat).take p.upstream_region_len).length =
        p.upstream_region_len := by
      apply window_len
      omega
    simpa [pyUpper] using all_base_fraction _ 'A' rfl _ hL hlen hall
  · rw [hm]
    have hlen : ((gi.reference_region.data.drop
        (coords.1 - gi.all_read_region_start -
          (p.upstream_region_len : Int)).toNat).take p.upstream_region_len).length =
        p.upstream_region_len := by
      apply window_len
      omega
    simpa [pyUpper] using all_base_fraction _ 'T' rfl _ hL hlen hall

/-- A `Params` record with the default `upstream_region_len = 20`. -/
def p20 : Params := { upstream_region_len := 20 }

/-- A gene region whose reference window is 30 `A` bases. -/
def giAllA : GeneInfo :=
  { all_read_region_start := 0
    reference_region := String.mk (List.replicate 30 'A')
    canonical_sites := []
    transcript_start := fun _ => 0
    transcript_end := fun _ => 0
    all_isoforms_exons := fun _ => []
    children := fun _ => [] }

/-- C8 witness: the window extraction instantiated on a concrete read
spanning `(25, 9)` inside the 30-base all-`A` region. -/
theorem check_downstream_polya_spec_witness :
    (check_downstream_polya p20 ((25 : Int), (9 : Int)) giAllA '+' =
      (⟨(giAllA.reference_region.data.drop
          ((9 : Int) - giAllA.all_read_region_start + 1).toNat).take p20.upstream_region_len⟩,
       (((pyUpper ⟨(giAllA.reference_region.data.drop
            ((9 : Int) - giAllA.all_read_region_start + 1).toNat).take
              p20.upstream_region_len⟩).data.count 'A' : ℚ) /
         (p20.upstream_region_len : ℚ)))) ∧
    ((∀ c ∈ (giAllA.reference_region.data.drop
        ((9 : Int) - giAllA.all_read_region_start + 1).toNat).take p20.upstream_region_len,
        c = 'A') →
      (check_downstream_polya p20 ((25 : Int), (9 : Int)) giAllA '+').2 = 1) ∧
    (check_downstream_polya p20 ((25 : Int), (9 : Int)) giAllA '-' =
      (⟨(giAllA.reference_region.data.drop
          ((25 : Int) - giAllA.all_read_region_start -
            (p20.upstream_region_len : Int)).toNat).take p20.upstream_region_len⟩,
       (((pyUpper ⟨(giAllA.reference_region.data.drop
            ((25 : Int) - giAllA.all_read_region_start -
              (p20.upstream_region_len : Int)).toNat).take
              p20.upstream_region_len⟩).data.count 'T' : ℚ) /
         (p20.upstream_region_len : ℚ)))) ∧
    ((∀ c ∈ (giAllA.reference_region.data.drop
        ((25 : Int) - giAllA.all_read_region_start -
          (p20.upstream_region_len : Int)).toNat).take p20.upstream_region_len, c = 'T') →
      (check_downstream_polya p20 ((25 : Int), (9 : Int)) giAllA '-').2 = 1) :=
  check_downstream_polya_spec p20 ((25 : Int), (9 : Int)) giAllA
    (by decide) (by decide) (by decide) (by decide) (by decide)

/-- Division by a larger positive denominator is strictly smaller. -/
theorem frac_lt (cnt len L : Nat) (h1 : cnt ≤ len) (hlt : len < L) (hc : 0 < cnt) :
    ((cnt : ℚ) / (L : ℚ)) < ((cnt : ℚ) / (len : ℚ)) := by
  have hlen : 0 < len := lt_of_lt_of_le hc h1
  exact div_lt_div_of_pos_left (by exact_mod_cast hc) (by exact_mod_cast hlen)
    (by exact_mod_cast hlt)

/-- C10: the fraction returned by `check_downstream_polya` always has
the fixed denominator `upstream_region_len` (the count of the
strand-relevant base over the constant, not over the extracted
subsequence's length); so whenever the region boundary truncates the
window below `upstream_region_len` bases and the count is positive, the
returned fraction is strictly below the base's proportion within the
returned subsequence. -/
theorem check_downstream_polya_fixed_denominator (p : Params) (coords : Int × Int)
    (gi : GeneInfo) (strand : Char) (hL : 0 < p.upstream_region_len) :
    ((check_downstream_polya p coords gi strand).2 =
      (((pyUpper (check_downstream_polya p coords gi strand).1).data.count
        (if strand = '+' then 'A' else 'T') : ℚ) / (p.upstream_region_len : ℚ))) ∧
    ((check_downstream_polya p coords gi strand).1.data.length < p.upstream_region_len →
      0 < (pyUpper (check_downstream_polya p coords gi strand).1).data.count
        (if strand = '+' then 'A' else 'T') →
      (check_downstream_polya p coords gi strand).2 <
        (((pyUpper (check_downstream_polya p coords gi strand).1).data.count
          (if strand = '+' then 'A' else 'T') : ℚ) /
          ((check_downstream_polya p coords gi strand).1.data.length : ℚ))) := by
  have hmain : (check_downstream_polya p coords gi strand).2 =
      (((pyUpper (check_downstream_polya p coords gi strand).1).data.count
        (if strand = '+' then 'A' else 'T') : ℚ) / (p.upstream_region_len : ℚ)) := by
    by_cases hs : strand = '+' <;> simp [check_downstream_polya, hs]
  refine ⟨hmain, fun hshort hpos => ?_⟩
  rw [hmain]
  have hle : (pyUpper (check_downstream_polya p coords gi strand).1).data.count
      (if strand = '+' then 'A' else 'T') ≤
      (check_downstream_polya p coords gi strand).1.data.length := by
    have hcl : (pyUpper (check_downstream_polya p coords gi strand).1).data.count
        (if strand = '+' then 'A' else 'T') ≤
        (pyUpper (check_downstream_polya p coords gi strand).1).data.length :=
      List.count_le_length _ _
    have hmap : (pyUpper (check_downstream_polya p coords gi strand).1).data.length =
        (check_downstream_polya p coords gi strand).1.data.length := by
      simp [pyUpper]
    omega
  exact frac_lt _ _ _ hle hshort hpos

/-- C10 witness: a plus-strand read ending 14 bases before the region
boundary, so the downstream window is truncated to 14 < 20 bases; the
returned fraction (14/20) is strictly below the in-window proportion
(14/14). -/
theorem check_downstream_polya_fixed_denominator_witness :
    ((check_downstream_polya p20 ((0 : Int), (15 : Int)) giAllA '+').2 =
      (((pyUpper (check_downstream_polya p20 ((0 : Int), (15 : Int)) giAllA '+').1).data.count
        (if ('+' : Char) = '+' then 'A' else 'T') : ℚ) / (p20.upstream_region_len : ℚ))) ∧
    ((check_downstream_polya p20 ((0 : Int), (15 : Int)) giAllA '+').2 <
      (((pyUpper (check_downstream_polya p20 ((0 : Int), (15 : Int)) giAllA '+').1).data.count
        (if ('+' : Char) = '+' then 'A' else 'T') : ℚ) /
        ((check_downstream_polya p20 ((0 : Int), (15 : Int)) giAllA '+').1.data.length : ℚ))) := by
  have h := check_downstream_polya_fixed_denominator p20 ((0 : Int), (15 : Int)) giAllA '+'
    (by decide)
  exact ⟨h.1, h.2 (by decide) (by decide)⟩

/-- Interval base counts are sums of non-negative terms. -/
theorem sum_intervals_to_point_nonneg (l : List (Int × Int)) (pt : Int) :
    0 ≤ sum_intervals_to_point l pt := by
  apply List.sum_nonneg
  intro x hx
  obtain ⟨p, _, rfl⟩ := List.mem_map.mp hx
  exact le_max_left 0 _

/-- Interval base counts are sums of non-negative terms. -/
theorem sum_intervals_from_point_nonneg (l : List (Int × Int)) (pt : Int) :
    0 ≤ sum_intervals_from_point l pt := by
  apply List.sum_nonneg
  intro x hx
  obtain ⟨p, _, rfl⟩ := List.mem_map.mp hx
  exact le_max_left 0 _

/-- A list of non-negative integers with a positive member has positive
sum. -/
theorem sum_pos_of_mem (l : List Int) (x : Int) (hx : x ∈ l) (hpos : 0 < x)
    (hnn : ∀ y ∈ l, 0 ≤ y) : 0 < l.sum := by
  induction l with
  | nil => cases hx
  | cons a as ih =>
    rw [List.sum_cons]
    rcases List.mem_cons.mp hx with rfl | hx2
    · have : 0 ≤ as.sum := List.sum_nonneg (fun y hy => hnn y (List.mem_cons_of_mem _ hy))
      omega
    · have ha : 0 ≤ a := hnn a (List.mem_cons_self _ _)
      have := ih hx2 (fun y hy => hnn y (List.mem_cons_of_mem _ hy))
      omega

/-- An interval starting before the point contributes at least one base
before it. -/
theorem sum_intervals_to_point_pos (l : List (Int × Int)) (pt : Int) (s e : Int)
    (hmem : (s, e) ∈ l) (hse : s ≤ e) (hsp : s < pt) :
    0 < sum_intervals_to_point l pt := by
  apply sum_pos_of_mem _ (max 0 (min e (pt - 1) - s + 1))
  · exact List.mem_map_of_mem _ hmem
  · have h1 : s ≤ min e (pt - 1) := le_min hse (by omega)
    have h2 : (1 : Int) ≤ min e (pt - 1) - s + 1 := by omega
    have := le_trans h2 (le_max_right 0 (min e (pt - 1) - s + 1))
    omega
  · intro y hy
    obtain ⟨p, _, rfl⟩ := List.mem_map.mp hy
    exact le_max_left 0 _

/-- An interval ending after the point contributes at least one base
after it. -/
theorem sum_intervals_from_point_pos (l : List (Int × Int)) (pt : Int) (s e : Int)
    (hmem : (s, e) ∈ l) (hse : s ≤ e) (hpe : pt < e) :
    0 < sum_intervals_from_point l pt := by
  apply sum_pos_of_mem _ (max 0 (e - max s (pt + 1) + 1))
  · exact List.mem_map_of_mem _ hmem
  · have h1 : max s (pt + 1) ≤ e := max_le hse (by omega)
    have h2 : (1 : Int) ≤ e - max s (pt + 1) + 1 := by omega
    have := le_trans h2 (le_max_right 0 (e - max s (pt + 1) + 1))
    omega
  · intro y hy
    obtain ⟨p, _, rfl⟩ := List.mem_map.mp hy
    exact le_max_left 0 _

/-- C4: when the read does not overshoot the transcript boundary, the
TSS (resp. TTS) distance is the non-negative exonic span along the
transcript's exons; when the read's start precedes the transcript start
(resp. its end exceeds the transcript end) and the read's exon features
reach its boundary coordinate, the distance is the negated exonic span
along the read's own exon features up to the transcript boundary, a
strictly negative value. -/
theorem count_dist_signs (ra : ReadAssignment) (t : String) (e0 s0 : Int) :
    ((ra.gene_info.transcript_start t ≤ ra.read_start → 0 ≤ count_tss_dist ra t) ∧
     (ra.read_end ≤ ra.gene_info.transcript_end t → 0 ≤ count_tts_dist ra t)) ∧
    ((ra.read_start < ra.gene_info.transcript_start t →
      (ra.read_start, e0) ∈ ra.read_features → ra.read_start ≤ e0 →
      count_tss_dist ra t =
        -sum_intervals_to_point ra.read_features (ra.gene_info.transcript_start t) ∧
      count_tss_dist ra t < 0) ∧
     (ra.gene_info.transcript_end t < ra.read_end →
      (s0, ra.read_end) ∈ ra.read_features → s0 ≤ ra.read_end →
      count_tts_dist ra t =
        -sum_intervals_from_point ra.read_features (ra.gene_info.transcript_end t) ∧
      count_tts_dist ra t < 0)) := by
  refine ⟨⟨fun hts => ?_, fun hte => ?_⟩, ⟨fun hlt hmem he => ?_, fun hlt hmem hs => ?_⟩⟩
  · rw [count_tss_dist, if_neg (not_lt.mpr hts)]
    exact sum_intervals_to_point_nonneg _ _
  · rw [count_tts_dist, if_neg (not_lt.mpr hte)]
    exact sum_intervals_from_point_nonneg _ _
  · have heq : count_tss_dist ra t =
        -sum_intervals_to_point ra.read_features (ra.gene_info.transcript_start t) := by
      rw [count_tss_dist, if_pos hlt]
    have hpos := sum_intervals_to_point_pos ra.read_features
      (ra.gene_info.transcript_start t) ra.read_start e0 hmem he hlt
    exact ⟨heq, by omega⟩
  · have heq : count_tts_dist ra t =
        -sum_intervals_from_point ra.read_features (ra.gene_info.transcript_end t) := by
      rw [count_tts_dist, if_pos hlt]
    have hpos := sum_intervals_from_point_pos ra.read_features
      (ra.gene_info.transcript_end t) s0 ra.read_end hmem hs hlt
    exact ⟨heq, by omega⟩

/-- A gene with three transcripts whose TSS distances from the read
`(50, 120)` are `+50`, `-5` and `+200`, and TTS distances `0`, `-10`
and `0`. -/
def giThree : GeneInfo :=
  { all_read_region_start := 0
    reference_region := ""
    canonical_sites := []
    transcript_start := fun t => if t = "t1" then 0 else if t = "t2" then 55 else -150
    transcript_end := fun t => if t = "t2" then 110 else 130
    all_isoforms_exons := fun t =>
      if t = "t1" then [(0, 100)] else if t = "t2" then [(50, 120)] else [(-150, 49)]
    children := fun _ => ["t1", "t2", "t3"] }

/-- A read spanning `(50, 120)` with a single exon feature, matched to
the gene `giThree`. -/
def raThree : ReadAssignment :=
  { gene_info := giThree
    read_features := [(50, 120)]
    read_start := 50
    read_end := 120
    assigned_gene := "g" }

/-- C4 witness: the sign properties instantiated on the concrete read:
transcript `t1` contains the read (both distances non-negative),
transcript `t2` is overshot at both ends (both distances strictly
negative and equal to the negated read-exon spans). -/
theorem count_dist_signs_witness :
    (0 ≤ count_tss_dist raThree "t1" ∧ 0 ≤ count_tts_dist raThree "t1") ∧
    ((count_tss_dist raThree "t2" =
        -sum_intervals_to_point raThree.read_features
          (raThree.gene_info.transcript_start "t2") ∧
      count_tss_dist raThree "t2" < 0) ∧
     (count_tts_dist raThree "t2" =
        -sum_intervals_from_point raThree.read_features
          (raThree.gene_info.transcript_end "t2") ∧
      count_tts_dist raThree "t2" < 0)) := by
  have h1 := count_dist_signs raThree "t1" 0 0
  have h2 := count_dist_signs raThree "t2" 120 50
  exact ⟨⟨h1.1.1 (by decide), h1.1.2 (by decide)⟩,
    ⟨h2.2.1 (by decide) (by decide) (by decide),
     h2.2.2 (by decide) (by decide) (by decide)⟩⟩

/-- An in-range `getD` is a member of the list. -/
theorem getD_mem_of_lt (l : List Int) (k : Nat) (h : k < l.length) : l.getD k 0 ∈ l := by
  rw [List.getD_eq_getElem l 0 h]
  exact List.getElem_mem h

/-- Invariant of the `argmin` accumulator: the result is the carried
best index when the carried value undercuts the whole list, else
`i + j` for the first position `j` of the list's minimum when that
minimum beats the carried value. -/
theorem argminAux_spec (l : List Int) : ∀ (i b : Nat) (v : Int),
    (argminAux l i b v = b ∧ ∀ x ∈ l, v ≤ x) ∨
    (∃ j, j < l.length ∧ argminAux l i b v = i + j ∧ l.getD j 0 < v ∧
      (∀ k, k < l.length → l.getD j 0 ≤ l.getD k 0) ∧
      (∀ k, k < j → l.getD j 0 < l.getD k 0)) := by
  induction l with
  | nil =>
    intro i b v
    left
    exact ⟨rfl, fun x hx => absurd hx (List.not_mem_nil x)⟩
  | cons x xs ih =>
    intro i b v
    by_cases hxv : x < v
    · rw [show argminAux (x :: xs) i b v = argminAux xs (i + 1) i x from by
        simp [argminAux, hxv]]
      rcases ih (i + 1) i x with ⟨hres, hall⟩ | ⟨j, hj, hres, hlt, hmin, hstrict⟩
      · right
        refine ⟨0, by simp, by omega, by simpa using hxv, ?_, ?_⟩
        · intro k hk
          cases k with
          | zero => simp
          | succ k2 =>
            simp only [List.getD_cons_zero, List.getD_cons_succ]
            exact hall _ (getD_mem_of_lt xs k2 (by simpa using hk))
        · intro k hk
          omega
      · right
        refine ⟨j + 1, by simpa using hj, by omega, ?_, ?_, ?_⟩
        · simp only [List.getD_cons_succ]
          omega
        · intro k hk
          cases k with
          | zero =>
            simp only [List.getD_cons_succ, List.getD_cons_zero]
            omega
          | succ k2 =>
            simp only [List.getD_cons_succ]
            exact hmin k2 (by simpa using hk)
        · intro k hk
          cases k with
          | zero =>
            simp only [List.getD_cons_succ, List.getD_cons_zero]
            omega
          | succ k2 =>
            simp only [List.getD_cons_succ]
            exact hstrict k2 (by omega)
    · rw [show argminAux (x :: xs) i b v = argminAux xs (i + 1) b v from by
        simp [argminAux, hxv]]
      rcases ih (i + 1) b v with ⟨hres, hall⟩ | ⟨j, hj, hres, hlt, hmin, hstrict⟩
      · left
        refine ⟨hres, fun y hy => ?_⟩
        rcases List.mem_cons.mp hy with rfl | hy2
        · omega
        · exact hall y hy2
      · right
        refine ⟨j + 1, by simpa using hj, by omega, ?_, ?_, ?_⟩
        · simp only [List.getD_cons_succ]
          exact hlt
        · intro k hk
          cases k with
          | zero =>
            simp only [List.getD_cons_succ, List.getD_cons_zero]
            omega
          | succ k2 =>
            simp only [List.getD_cons_succ]
            exact hmin k2 (by simpa using hk)
        · intro k hk
          cases k with
          | zero =>
            simp only [List.getD_cons_succ, List.getD_cons_zero]
            omega
          | succ k2 =>
            simp only [List.getD_cons_succ]
            exact hstrict k2 (by omega)

/-- `argmin` returns the index of the first minimal element. -/
theorem argmin_spec (l : List Int) (h : l ≠ []) :
    argmin l < l.length ∧
    (∀ k, k < l.length → l.getD (argmin l) 0 ≤ l.getD k 0) ∧
    (∀ k, k < argmin l → l.getD (argmin l) 0 < l.getD k 0) := by
  rcases l with _ | ⟨x, xs⟩
  · exact absurd rfl h
  · rw [show argmin (x :: xs) = argminAux xs 1 0 x from rfl]
    rcases argminAux_spec xs 1 0 x with ⟨hres, hall⟩ | ⟨j, hj, hres, hlt, hmin, hstrict⟩
    · rw [hres]
      refine ⟨by simp, ?_, ?_⟩
      · intro k hk
        cases k with
        | zero => simp
        | succ k2 =>
          simp only [List.getD_cons_zero, List.getD_cons_succ]
          exact hall _ (getD_mem_of_lt xs k2 (by simpa using hk))
      · intro k hk
        omega
    · rw [hres]
      have hj1 : 1 + j = j + 1 := by omega
      rw [hj1]
      refine ⟨by simpa using hj, ?_, ?_⟩
      · intro k hk
        cases k with
        | zero =>
          simp only [List.getD_cons_succ, List.getD_cons_zero]
          omega
        | succ k2 =>
          simp only [List.getD_cons_succ]
          exact hmin k2 (by simpa using hk)
      · intro k hk
        cases k with
        | zero =>
          simp only [List.getD_cons_succ, List.getD_cons_zero]
          omega
        | succ k2 =>
          simp only [List.getD_cons_succ]
          exact hstrict k2 (by omega)

/-- `getD` commutes with taking absolute values, in range. -/
theorem getD_map_abs (l : List Int) (k : Nat) (hk : k < l.length) :
    (l.map (fun x => |x|)).getD k 0 = |l.getD k 0| := by
  rw [List.getD_eq_getElem l 0 hk,
    List.getD_eq_getElem (l.map (fun x => |x|)) 0 (by simpa using hk),
    List.getElem_map]

/-- C5: over a gene with at least one transcript, `find_closests_tsts`
returns the pair whose components are selected independently from the
per-transcript TSS-distance and TTS-distance lists (in transcript
iteration order): each returned value sits at an index whose absolute
value is minimal over the whole list, and every strictly earlier index
holds a strictly larger absolute value (first occurrence wins ties). -/
theorem find_closests_tsts_spec (ra : ReadAssignment)
    (h : ra.gene_info.children ra.assigned_gene ≠ []) :
    ∃ i1 i2,
      find_closests_tsts ra = some
        (((ra.gene_info.children ra.assigned_gene).map (count_tss_dist ra)).getD i1 0,
         ((ra.gene_info.children ra.assigned_gene).map (count_tts_dist ra)).getD i2 0) ∧
      (i1 < ((ra.gene_info.children ra.assigned_gene).map (count_tss_dist ra)).length ∧
       (∀ k, k < ((ra.gene_info.children ra.assigned_gene).map (count_tss_dist ra)).length →
         |((ra.gene_info.children ra.assigned_gene).map (count_tss_dist ra)).getD i1 0| ≤
         |((ra.gene_info.children ra.assigned_gene).map (count_tss_dist ra)).getD k 0|) ∧
       (∀ k, k < i1 →
         |((ra.gene_info.children ra.assigned_gene).map (count_tss_dist ra)).getD i1 0| <
         |((ra.gene_info.children ra.assigned_gene).map (count_tss_dist ra)).getD k 0|)) ∧
      (i2 < ((ra.gene_info.children ra.assigned_gene).map (count_tts_dist ra)).length ∧
       (∀ k, k < ((ra.gene_info.children ra.assigned_gene).map (count_tts_dist ra)).length →
         |((ra.gene_info.children ra.assigned_gene).map (count_tts_dist ra)).getD i2 0| ≤
         |((ra.gene_info.children ra.assigned_gene).map (count_tts_dist ra)).getD k 0|) ∧
       (∀ k, k < i2 →
         |((ra.gene_info.children ra.assigned_gene).map (count_tts_dist ra)).getD i2 0| <
         |((ra.gene_info.children ra.assigned_gene).map (count_tts_dist ra)).getD k 0|)) := by
  have hne : (ra.gene_info.children ra.assigned_gene).isEmpty = false := by
    cases hts : ra.gene_info.children ra.assigned_gene with
    | nil => exact absurd hts h
    | cons a as => rfl
  have habs1 : ((ra.gene_info.children ra.assigned_gene).map (count_tss_dist ra)).map
      (fun x => |x|) ≠ [] := by simpa using h
  have habs2 : ((ra.gene_info.children ra.assigned_gene).map (count_tts_dist ra)).map
      (fun x => |x|) ≠ [] := by simpa using h
  obtain ⟨hj1, hmin1, hstrict1⟩ := argmin_spec _ habs1
  obtain ⟨hj2, hmin2, hstrict2⟩ := argmin_spec _ habs2
  rw [List.length_map] at hj1 hj2
  refine ⟨argmin (((ra.gene_info.children ra.assigned_gene).map
      (count_tss_dist ra)).map (fun x => |x|)),
    argmin (((ra.gene_info.children ra.assigned_gene).map
      (count_tts_dist ra)).map (fun x => |x|)), ?_, ⟨hj1, ?_, ?_⟩, ⟨hj2, ?_, ?_⟩⟩
  · simp only [find_closests_tsts, hne, Bool.false_eq_true, if_false]
  · intro k hk
    have := hmin1 k (by simpa using hk)
    rwa [getD_map_abs _ _ hj1, getD_map_abs _ _ hk] at this
  · intro k hk
    have hklt : k < ((ra.gene_info.children ra.assigned_gene).map
        (count_tss_dist ra)).length := lt_trans hk hj1
    have := hstrict1 k hk
    rwa [getD_map_abs _ _ hj1, getD_map_abs _ _ hklt] at this
  · intro k hk
    have := hmin2 k (by simpa using hk)
    rwa [getD_map_abs _ _ hj2, getD_map_abs _ _ hk] at this
  · intro k hk
    have hklt : k < ((ra.gene_info.children ra.assigned_gene).map
        (count_tts_dist ra)).length := lt_trans hk hj2
    have := hstrict2 k hk
    rwa [getD_map_abs _ _ hj2, getD_map_abs _ _ hklt] at this

/-- C5 witness: on the concrete gene with TSS distances
`[+50, -5, +200]` the selected TSS distance is `-5` (smallest absolute
value) and the selected TTS distance is `0` (first of the ties at
absolute value 0), together with the selection characterisation. -/
theorem find_closests_tsts_spec_witness :
    find_closests_tsts raThree = some (-5, 0) ∧
    (∃ i1 i2,
      find_closests_tsts raThree = some
        (((raThree.gene_info.children raThree.assigned_gene).map
            (count_tss_dist raThree)).getD i1 0,
         ((raThree.gene_info.children raThree.assigned_gene).map
            (count_tts_dist raThree)).getD i2 0) ∧
      (i1 < ((raThree.gene_info.children raThree.assigned_gene).map
          (count_tss_dist raThree)).length ∧
       (∀ k, k < ((raThree.gene_info.children raThree.assigned_gene).map
            (count_tss_dist raThree)).length →
         |((raThree.gene_info.children raThree.assigned_gene).map
            (count_tss_dist raThree)).getD i1 0| ≤
         |((raThree.gene_info.children raThree.assigned_gene).map
            (count_tss_dist raThree)).getD k 0|) ∧
       (∀ k, k < i1 →
         |((raThree.gene_info.children raThree.assigned_gene).map
            (count_tss_dist raThree)).getD i1 0| <
         |((raThree.gene_info.children raThree.assigned_gene).map
            (count_tss_dist raThree)).getD k 0|)) ∧
      (i2 < ((raThree.gene_info.children raThree.assigned_gene).map
          (count_tts_dist raThree)).length ∧
       (∀ k, k < ((raThree.gene_info.children raThree.assigned_gene).map
            (count_tts_dist raThree)).length →
         |((raThree.gene_info.children raThree.assigned_gene).map
            (count_tts_dist raThree)).getD i2 0| ≤
         |((raThree.gene_info.children raThree.assigned_gene).map
            (count_tts_dist raThree)).getD k 0|) ∧
       (∀ k, k < i2 →
         |((raThree.gene_info.children raThree.assigned_gene).map
            (count_tts_dist raThree)).getD i2 0| <
         |((raThree.gene_info.children raThree.assigned_gene).map
            (count_tts_dist raThree)).getD k 0|))) :=
  ⟨by decide, find_closests_tsts_spec raThree (by decide)⟩

end IsoQuant
